import Mathlib

/-!
Verification of `instagram_enricher.py`.

Strings are embedded as `List Char` (so every operation is a structural
recursion that the kernel can evaluate).  `pyStrip`, `splitFirst` and
`pySplit` model the Python string methods strip, split-with-maxsplit-one
and split.  The parser of `get_instagram_data`, the field mapping
of `update_sheet`, and the row-processing loop of `update_sheet` are
translated directly from the source; the loop is modelled as a trace of
events (sleeps, fetches, writes, skips, caught per-row errors), with the
external world supplied by oracles (the subprocess result for each row
index, and whether the spreadsheet update call at a row index raises).
-/

namespace Enricher

/-- Strings as character lists. -/
abbrev Str := List Char

/-- Python `s.strip()`: drop whitespace from both ends. -/
def pyStrip (s : Str) : Str :=
  ((s.dropWhile Char.isWhitespace).reverse.dropWhile Char.isWhitespace).reverse

/-- Python `s.split(c, 1)` for a single character `c` (assuming `c` occurs):
the part before the first occurrence and the part after it. -/
def splitFirst (c : Char) : Str → Str × Str
  | [] => ([], [])
  | a :: rest =>
    if a = c then ([], rest)
    else
      let p := splitFirst c rest
      (a :: p.1, p.2)

/-- Worker for `pySplit`: scans left to right; `skip` counts remaining
characters of a just-matched separator that must be consumed. -/
def splitSepGo (sep : Str) : Str → Nat → Str → List Str
  | [], _, acc => [acc.reverse]
  | _ :: rest, skip + 1, acc => splitSepGo sep rest skip acc
  | a :: rest, 0, acc =>
    if sep.isPrefixOf (a :: rest) then
      acc.reverse :: splitSepGo sep rest (sep.length - 1) []
    else
      splitSepGo sep rest 0 (a :: acc)

/-- Python `s.split(sep)` (non-overlapping occurrences, left to right). -/
def pySplit (sep : Str) (s : Str) : List Str :=
  splitSepGo sep s 0 []

/-- The `" | "` delimiter of combined fields. -/
def SEP : Str := " | ".toList

/-- The newline separator used on the subprocess stdout. -/
def NL : Str := "\n".toList

/-! ### Constants of the source -/

/-- Constant `OUTPUT_RANGE_START`: start writing data from column G. -/
def OUTPUT_RANGE_START : Str := "G".toList

/-- Constant `OUTPUT_RANGE_END`: end at column M. -/
def OUTPUT_RANGE_END : Str := "M".toList

/-- Constant `RATE_LIMIT_DELAY`: delay between profile requests in seconds. -/
def RATE_LIMIT_DELAY : Nat := 30

/-- Constant `BATCH_SIZE`: number of requests before taking a longer break. -/
def BATCH_SIZE : Nat := 10

/-- Constant `BATCH_DELAY`: delay after each batch. -/
def BATCH_DELAY : Nat := 300

/-- Range string read in `update_sheet`: the format string B2:..100 with
`OUTPUT_RANGE_END` interpolated in the middle. -/
def readRange : Str := "B2:".toList ++ OUTPUT_RANGE_END ++ "100".toList

/-- Per-row write range: `OUTPUT_RANGE_START`, the row index, a colon, the
letter S, and the row index again (the row index already rendered in
decimal). -/
def writeRange (idxStr : Str) : Str :=
  OUTPUT_RANGE_START ++ idxStr ++ ":S".toList ++ idxStr

/-- The final (letter) column of an A1-style range string: the alphabetic
characters of the part after the colon. -/
def rangeEndCol (r : Str) : Str :=
  ((pySplit ":".toList r).getD 1 []).filter Char.isAlpha

/-! ### The parser of `get_instagram_data` -/

/-- The key/value pair assigned by one ` | `-separated part of a combined
value (loop body of `for part in parts`): a part containing a colon is
parsed as its own `key: value` pair, a part without a colon is assigned to
the outer key. -/
def partAssign (key : Str) (part : Str) : Str × Str :=
  if part.contains ':' then
    let skv := splitFirst ':' (pyStrip part)
    (pyStrip skv.1, pyStrip skv.2)
  else
    (key, pyStrip part)

/-- One iteration of the loop over the stdout lines: the dict is an
association list, most recent assignment first (`List.lookup` therefore
returns the latest value, like a Python dict). -/
def lineAssign (data : List (Str × Str)) (line : Str) : List (Str × Str) :=
  if line.contains ':' then
    let kv := splitFirst ':' line
    let key := pyStrip kv.1
    let value := pyStrip kv.2
    if (pySplit SEP value).length ≠ 1 then
      (pySplit SEP value).foldl (fun d part => partAssign key part :: d) data
    else
      (key, value) :: data
  else
    data

/-- The full parse of the subprocess stdout (lines 63–83 of the source). -/
def parseStdout (stdout : Str) : List (Str × Str) :=
  (pySplit NL stdout).foldl lineAssign []

/-- Outcome of `subprocess.run`: either the invocation raised, or it
finished with a return code and captured stdout. -/
inductive SubprocResult where
  | exn : SubprocResult
  | ok (returncode : Int) (stdout : Str) : SubprocResult
deriving DecidableEq

/-- Translation of `get_instagram_data`: none for an empty username, for a
raising invocation and for a non-zero exit code; otherwise the parsed
stdout. -/
def get_instagram_data (username : Str) (res : SubprocResult) :
    Option (List (Str × Str)) :=
  if username.isEmpty then none
  else
    match res with
    | .exn => none
    | .ok rc out => if rc ≠ 0 then none else some (parseStdout out)

/-- Python dict lookup with an empty-string default, as in `data.get` with
a second argument of the empty string. -/
def dget (data : List (Str × Str)) (k : Str) : Str :=
  (List.lookup k data).getD []

/-- The 13 values written per row (lines 132–146 of the source), in the
fixed positional order. -/
def buildValues (data : List (Str × Str)) : List Str :=
  [dget data "Follower".toList,
   dget data "Following".toList,
   dget data "Number of posts".toList,
   dget data "Biography".toList,
   dget data "Full Name".toList,
   dget data "Verified".toList,
   dget data "Is private Account".toList,
   dget data "Is buisness Account".toList,
   dget data "userID".toList,
   dget data "IGTV posts".toList,
   dget data "Linked WhatsApp".toList,
   dget data "Memorial Account".toList,
   dget data "New Instagram user".toList]

/-- The 13 field names in write order. -/
def fieldOrder : List Str :=
  ["Follower".toList, "Following".toList, "Number of posts".toList,
   "Biography".toList, "Full Name".toList, "Verified".toList,
   "Is private Account".toList, "Is buisness Account".toList,
   "userID".toList, "IGTV posts".toList, "Linked WhatsApp".toList,
   "Memorial Account".toList, "New Instagram user".toList]

/-! ### The row loop of `update_sheet`, as an event trace -/

/-- Observable events of one run of `update_sheet`:
`batchSleep` is the `BATCH_DELAY` pause, `rateSleep` the `RATE_LIMIT_DELAY`
pause before a request, `fetch` the subprocess invocation, `skip` the
"already processed" branch, `write` the spreadsheet update call,
`postWriteSleep` the 2-second pause after a successful write, and
`rowError` a caught per-row exception (logged, loop continues). -/
inductive Event where
  | batchSleep (idx : Nat) : Event
  | rateSleep (idx : Nat) : Event
  | fetch (idx : Nat) (username : Str) : Event
  | skip (idx : Nat) : Event
  | write (idx : Nat) (values : List Str) : Event
  | postWriteSleep (idx : Nat) : Event
  | rowError (idx : Nat) : Event
deriving DecidableEq

/-- Translation of `has_data`: the row has length above 5 and some cell at
index 5 or later is truthy (a cell is truthy iff it is a non-empty
string). -/
def hasData (row : List Str) : Bool :=
  decide (row.length > 5) && (row.drop 5).any (fun c => !c.isEmpty)

/-- The body of `for idx, row in enumerate(rows, start=2)`.
`oracle idx` is the subprocess outcome if a fetch is made at row `idx`;
`wfail idx` says whether the spreadsheet update call at row `idx` raises.
An empty `row` makes `row[0]` raise (caught: `rowError`).  A falsy parse
result (`None` or an empty dict) skips the write (`if data:`). -/
def processRow (force : Bool) (oracle : Nat → SubprocResult)
    (wfail : Nat → Bool) (idx : Nat) (row : List Str) : List Event :=
  let batch :=
    if (idx - 2) % BATCH_SIZE = 0 ∧ 2 < idx then [Event.batchSleep idx] else []
  match row.head? with
  | none => batch ++ [Event.rowError idx]
  | some cell0 =>
    let username := pyStrip cell0
    if hasData row && !force then
      batch ++ [Event.skip idx]
    else
      let pre := batch ++ [Event.rateSleep idx] ++
        (if username.isEmpty then [] else [Event.fetch idx username])
      match get_instagram_data username (oracle idx) with
      | none => pre
      | some d =>
        if d.isEmpty then pre
        else if wfail idx then pre ++ [Event.rowError idx]
        else pre ++ [Event.write idx (buildValues d), Event.postWriteSleep idx]

/-- The loop over all rows, `idx` starting at `start`. -/
def runRows (force : Bool) (oracle : Nat → SubprocResult)
    (wfail : Nat → Bool) : Nat → List (List Str) → List Event
  | _, [] => []
  | start, row :: rest =>
    processRow force oracle wfail start row ++
      runRows force oracle wfail (start + 1) rest

/-- Translation of `update_sheet` after the initial read returned `rows`:
early exit on an empty result, only the first row in test mode, then the
loop with the index starting at 2. -/
def update_sheet (rows : List (List Str)) (test_mode force : Bool)
    (oracle : Nat → SubprocResult) (wfail : Nat → Bool) : List Event :=
  if rows.isEmpty then []
  else runRows force oracle wfail 2 (if test_mode then rows.take 1 else rows)

/-- Effect of a single event on a sheet (row index to written values):
`write` events are the only mutations. -/
def applyEvent (sheet : Nat → Option (List Str)) :
    Event → Nat → Option (List Str)
  | .write idx vs => fun j => if j = idx then some vs else sheet j
  | .batchSleep _ => sheet
  | .rateSleep _ => sheet
  | .fetch _ _ => sheet
  | .skip _ => sheet
  | .postWriteSleep _ => sheet
  | .rowError _ => sheet

/-- Replay of a whole trace on a sheet. -/
def applyEvents (sheet : Nat → Option (List Str))
    (evs : List Event) : Nat → Option (List Str) :=
  evs.foldl applyEvent sheet

/-! ### Helper notions for the parser proofs -/

/-- Key/value pairs assigned by one stdout line, in assignment order. -/
def assignsOfLine (line : Str) : List (Str × Str) :=
  if line.contains ':' then
    let kv := splitFirst ':' line
    let key := pyStrip kv.1
    let value := pyStrip kv.2
    if (pySplit SEP value).length ≠ 1 then
      (pySplit SEP value).map (partAssign key)
    else
      [(key, value)]
  else
    []

/-- Truthiness of the fetched data under the Python conditional: falsy for
none and for an empty dict. -/
def dataFalsy : Option (List (Str × Str)) → Bool
  | none => true
  | some d => d.isEmpty

/-- Recogniser for fetch events. -/
def isFetchEv : Event → Bool
  | .fetch _ _ => true
  | _ => false

/-- Recogniser for write events. -/
def isWriteEv : Event → Bool
  | .write _ _ => true
  | _ => false

/-- Recogniser for caught-error events. -/
def isErrEv : Event → Bool
  | .rowError _ => true
  | _ => false

/-- Worker for `fetchOk`: checks that every fetch event is immediately
preceded by the rate-limit sleep of the same row, given the previous
event. -/
def fetchOkAux : Option Event → List Event → Bool
  | _, [] => true
  | prev, e :: rest =>
    (match e with
     | .fetch i _ => decide (prev = some (Event.rateSleep i))
     | _ => true) &&
    fetchOkAux (some e) rest

/-- Predicate: in the trace, every fetch is immediately preceded by the
rate-limit sleep of its row. -/
def fetchOk (evs : List Event) : Bool :=
  fetchOkAux none evs

/-- Last event of a list, falling back to an earlier previous event. -/
def lastOf (p : Option Event) : List Event → Option Event
  | [] => p
  | e :: rest => lastOf (some e) rest

/-- Folding cons-of-`g` over a list prepends the reversed image. -/
theorem foldl_cons_rev {α β : Type} (g : α → β) :
    ∀ (ps : List α) (d : List β),
      ps.foldl (fun d p => g p :: d) d = (ps.map g).reverse ++ d := by
  intro ps
  induction ps with
  | nil => intro d; rfl
  | cons p ps ih =>
    intro d
    simp only [List.foldl_cons, List.map_cons, List.reverse_cons, ih,
      List.append_assoc, List.singleton_append]

/-- One line of the parse prepends its reversed assignments. -/
theorem lineAssign_eq (d : List (Str × Str)) (line : Str) :
    lineAssign d line = (assignsOfLine line).reverse ++ d := by
  by_cases h1 : List.contains line ':' = true <;>
    by_cases h2 :
        (pySplit SEP (pyStrip (splitFirst ':' line).2)).length = 1 <;>
      simp [lineAssign, assignsOfLine, h1, h2, foldl_cons_rev] <;>
    split <;> simp

/-- The whole parse loop prepends the reversed concatenation of the
per-line assignments. -/
theorem foldl_lineAssign_eq :
    ∀ (lines : List Str) (d : List (Str × Str)),
      lines.foldl lineAssign d =
        ((lines.map assignsOfLine).flatten).reverse ++ d := by
  intro lines
  induction lines with
  | nil => intro d; rfl
  | cons l ls ih =>
    intro d
    simp only [List.foldl_cons, ih, lineAssign_eq, List.map_cons,
      List.flatten_cons, List.reverse_append, List.append_assoc]

/-- Normal form of `parseStdout`: the reversed list of all assignments. -/
theorem parseStdout_eq (out : Str) :
    parseStdout out =
      (((pySplit NL out).map assignsOfLine).flatten).reverse := by
  unfold parseStdout
  rw [foldl_lineAssign_eq, List.append_nil]

/-- Lookup distributes over append, first list taking precedence. -/
theorem lookup_append (k : Str) :
    ∀ (a b : List (Str × Str)),
      List.lookup k (a ++ b) =
        (List.lookup k a).orElse (fun _ => List.lookup k b) := by
  intro a b
  induction a with
  | nil => rfl
  | cons p rest ih =>
    rcases p with ⟨k1, v1⟩
    by_cases h : k = k1
    · subst h
      simp [List.lookup, Option.orElse]
    · simp only [List.cons_append, List.lookup,
        beq_false_of_ne h, ih, List.append_eq]

/-- Lookup misses when no pair carries the key. -/
theorem lookup_eq_none_of_keys (k : Str) :
    ∀ (l : List (Str × Str)), (∀ p ∈ l, p.1 ≠ k) →
      List.lookup k l = none := by
  intro l
  induction l with
  | nil => intro _; rfl
  | cons p rest ih =>
    intro h
    rcases p with ⟨k1, v1⟩
    have hk : k1 ≠ k := h (k1, v1) (by simp)
    simp only [List.lookup, beq_false_of_ne (Ne.symm hk)]
    exact ih fun q hq => h q (by simp [hq])

/-! ### Helper notions for the trace proofs -/

/-- The loop splits at any row position: the trace is the traces of the
earlier rows, then the trace of that row, then the traces of the later
rows. -/
theorem runRows_decomp (f : Bool) (o : Nat → SubprocResult)
    (w : Nat → Bool) :
    ∀ (rows : List (List Str)) (start i : Nat) (h : i < rows.length),
      runRows f o w start rows =
        runRows f o w start (rows.take i) ++
          processRow f o w (start + i) (rows.get ⟨i, h⟩) ++
          runRows f o w (start + i + 1) (rows.drop (i + 1)) := by
  intro rows
  induction rows with
  | nil => intro start i h; exact absurd h (by simp)
  | cons r rest ih =>
    intro start i h
    match i with
    | 0 => simp [runRows]
    | j + 1 =>
      have hj : j < rest.length := by
        simpa using Nat.lt_of_succ_lt_succ h
      have := ih (start + 1) j hj
      simp only [runRows, List.take_succ_cons, List.drop_succ_cons,
        List.get_cons_succ]
      rw [this]
      simp only [List.append_assoc]
      have e1 : start + 1 + j = start + (j + 1) := by omega
      rw [e1]

/-- A write event in a row trace carries that row index. -/
theorem write_mem_processRow {k : Nat} {vs : List Str} {f : Bool}
    {o : Nat → SubprocResult} {w : Nat → Bool} {idx : Nat}
    {row : List Str} :
    Event.write k vs ∈ processRow f o w idx row → k = idx := by
  intro hmem
  rcases row with _ | ⟨c, rest⟩ <;> unfold processRow at hmem
  · revert hmem
    split <;> simp
  · simp only [List.head?] at hmem
    revert hmem
    split
    · split <;> simp
    · rcases hdata : get_instagram_data (pyStrip c) (o idx) with _ | d <;>
        simp only [hdata] <;> split <;> (try split) <;> (try split) <;>
        simp_all


/-- A write event in the loop trace comes from the row with its index. -/
theorem write_mem_runRows {k : Nat} {vs : List Str} {f : Bool}
    {o : Nat → SubprocResult} {w : Nat → Bool} :
    ∀ {rows : List (List Str)} {start : Nat},
      Event.write k vs ∈ runRows f o w start rows →
      ∃ j, ∃ hj : j < rows.length, k = start + j ∧
        Event.write k vs ∈ processRow f o w (start + j) (rows.get ⟨j, hj⟩) := by
  intro rows
  induction rows with
  | nil => intro start hmem; simp [runRows] at hmem
  | cons r rest ih =>
    intro start hmem
    rcases List.mem_append.mp hmem with hl | hr
    · refine ⟨0, by simp, ?_, ?_⟩
      · simpa using write_mem_processRow hl
      · simpa using hl
    · rcases ih hr with ⟨j, hj, hk, hmem2⟩
      refine ⟨j + 1, by simpa using Nat.succ_lt_succ hj, by omega, ?_⟩
      have e : start + (j + 1) = start + 1 + j := by omega
      rw [e]
      simpa using hmem2

/-- A batch pause appears in a row trace exactly when the row-index
condition of the source holds. -/
theorem batchSleep_mem_processRow {k : Nat} {f : Bool}
    {o : Nat → SubprocResult} {w : Nat → Bool} {idx : Nat}
    {row : List Str} :
    Event.batchSleep k ∈ processRow f o w idx row ↔
      k = idx ∧ (idx - 2) % BATCH_SIZE = 0 ∧ 2 < idx := by
  constructor
  · intro hmem
    rcases row with _ | ⟨c, rest⟩ <;> unfold processRow at hmem
    · revert hmem
      split <;> simp_all
    · simp only [List.head?] at hmem
      revert hmem
      split
      · split <;> simp_all
      · rcases hdata : get_instagram_data (pyStrip c) (o idx) with _ | d <;>
          simp only [hdata] <;> split <;> (try split) <;> (try split) <;>
          simp_all
  · rintro ⟨rfl, hc⟩
    rcases row with _ | ⟨c, rest⟩ <;> unfold processRow
    · simp [hc]
    · simp only [List.head?]
      split
      · simp [hc]
      · rcases hdata : get_instagram_data (pyStrip c) (o k) with _ | d <;>
          simp only [hdata] <;> (try split) <;> (try split) <;> simp [hc]

/-- A batch pause appears in the loop trace exactly at visited row indices
satisfying the row-index condition. -/
theorem batchSleep_mem_runRows {k : Nat} {f : Bool}
    {o : Nat → SubprocResult} {w : Nat → Bool} :
    ∀ {rows : List (List Str)} {start : Nat},
      Event.batchSleep k ∈ runRows f o w start rows ↔
        (start ≤ k ∧ k < start + rows.length ∧
          (k - 2) % BATCH_SIZE = 0 ∧ 2 < k) := by
  intro rows
  induction rows with
  | nil =>
    intro start
    simp only [runRows, List.not_mem_nil, false_iff, List.length_nil]
    omega
  | cons r rest ih =>
    intro start
    simp only [runRows, List.mem_append, batchSleep_mem_processRow, ih,
      List.length_cons]
    constructor
    · rintro (⟨rfl, h1, h2⟩ | ⟨h1, h2, h3, h4⟩)
      · exact ⟨Nat.le_refl _, by omega, h1, h2⟩
      · exact ⟨by omega, by omega, h3, h4⟩
    · rintro ⟨h1, h2, h3, h4⟩
      rcases Nat.eq_or_lt_of_le h1 with rfl | hlt
      · exact Or.inl ⟨rfl, h3, h4⟩
      · exact Or.inr ⟨by omega, by omega, h3, h4⟩

/-- The fetch check splits over append. -/
theorem fetchOkAux_append :
    ∀ (a : List Event) (p : Option Event) (b : List Event),
      fetchOkAux p (a ++ b) =
        (fetchOkAux p a && fetchOkAux (lastOf p a) b) := by
  intro a
  induction a with
  | nil => intro p b; simp [fetchOkAux, lastOf]
  | cons e a ih =>
    intro p b
    simp only [List.cons_append, fetchOkAux, ih, lastOf, Bool.and_assoc,
      List.append_eq]

/-- Every row trace passes the fetch check, whatever preceded it. -/
theorem fetchOkAux_processRow (f : Bool) (o : Nat → SubprocResult)
    (w : Nat → Bool) (idx : Nat) (row : List Str) (p : Option Event) :
    fetchOkAux p (processRow f o w idx row) = true := by
  rcases row with _ | ⟨c, rest⟩ <;> unfold processRow
  · split <;> simp [fetchOkAux]
  · simp only [List.head?]
    split
    · split <;> simp [fetchOkAux]
    · rcases hdata : get_instagram_data (pyStrip c) (o idx) with _ | d <;>
        simp only [hdata] <;> (try split) <;> (try split) <;>
        (try split) <;> (try split) <;> simp [fetchOkAux]

/-- The whole loop trace passes the fetch check. -/
theorem fetchOkAux_runRows (f : Bool) (o : Nat → SubprocResult)
    (w : Nat → Bool) :
    ∀ (rows : List (List Str)) (start : Nat) (p : Option Event),
      fetchOkAux p (runRows f o w start rows) = true := by
  intro rows
  induction rows with
  | nil => intro start p; rfl
  | cons r rest ih =>
    intro start p
    rw [runRows, fetchOkAux_append, fetchOkAux_processRow, ih]
    rfl

/-- Replaying a trace with no write to row `k` leaves row `k` unchanged. -/
theorem applyEvents_eq_of_no_write :
    ∀ (evs : List Event) (sheet : Nat → Option (List Str)) (k : Nat),
      (∀ vs, Event.write k vs ∉ evs) →
      applyEvents sheet evs k = sheet k := by
  intro evs
  induction evs with
  | nil => intro sheet k _; rfl
  | cons e rest ih =>
    intro sheet k h
    have step : applyEvents sheet (e :: rest) k =
        applyEvents (applyEvent sheet e) rest k := rfl
    rw [step, ih _ _ fun vs hmem => h vs (List.mem_cons_of_mem _ hmem)]
    rcases e with _ | _ | _ | _ | ⟨idx, vs⟩ | _ | _ <;> (try rfl)
    have hne : k ≠ idx := by
      intro hk
      exact h vs (by simp [hk])
    simp [applyEvent, hne]

/-- A row whose fetched data is falsy (none, or a successful parse with no
assignments) never produces a write event. -/
theorem write_not_mem_processRow_of_falsy {f : Bool}
    {o : Nat → SubprocResult} {w : Nat → Bool} {idx : Nat}
    {row : List Str}
    (h : dataFalsy (get_instagram_data (pyStrip (row.headD []))
          (o idx)) = true) :
    ∀ vs, Event.write idx vs ∉ processRow f o w idx row := by
  intro vs hmem
  rcases row with _ | ⟨c, rest⟩ <;> unfold processRow at hmem
  · revert hmem
    split <;> simp
  · simp only [List.headD] at h
    simp only [List.head?] at hmem
    revert hmem
    split
    · split <;> simp
    · rcases hdata : get_instagram_data (pyStrip c) (o idx) with _ | d <;>
        rw [hdata] at h <;> simp only [hdata]
      · split <;> simp
      · simp only [dataFalsy] at h
        simp [h]

/-! ### Claims -/

/-- C1: the spreadsheet read of `update_sheet` uses the range B2 to
`OUTPUT_RANGE_END` row 100, whose final column is M, while the per-row
write range ends at column S — so the final column of the read range does
NOT equal the final column of the write range, contrary to the claim (and
to the read being meant to cover all existing output data). -/
theorem C1_read_end_col_M_write_end_col_S :
    rangeEndCol readRange = "M".toList ∧
    rangeEndCol (writeRange "2".toList) = "S".toList ∧
    rangeEndCol readRange ≠ rangeEndCol (writeRange "2".toList) := by
  refine ⟨by decide, by decide, by decide⟩

/-- C7: the written row is exactly the 13 fields of `fieldOrder`, in that
fixed order, each taken untransformed from the record with an empty-string
default; in particular when every field is populated the row is exactly
the 13 stored values, and a missing field contributes an empty string at
its position (never an omitted cell: the length is always 13). -/
theorem C7_row_is_fixed_field_order_with_empty_default :
    ∀ (d : List (Str × Str)) (g : Str → Str),
      buildValues d = fieldOrder.map (fun fl => (List.lookup fl d).getD []) ∧
      (buildValues d).length = 13 ∧
      buildValues (fieldOrder.map (fun fl => (fl, g fl))) =
        fieldOrder.map g := by
  intro d g
  refine ⟨rfl, rfl, rfl⟩

/-- C6: a fetched row with a truthy cell at index 5 or later is, without
the force flag, skipped — its whole trace is the optional batch pause plus
the skip event, so no fetch and no write happen; and with the force flag
set the row is processed exactly like a row without trailing enrichment
values (its cells from index 5 on are ignored). -/
theorem C6_truthy_tail_skipped_unless_force :
    (∀ (o : Nat → SubprocResult) (w : Nat → Bool) (idx : Nat)
        (row : List Str), hasData row = true →
        processRow false o w idx row =
          (if (idx - 2) % BATCH_SIZE = 0 ∧ 2 < idx
            then [Event.batchSleep idx] else []) ++ [Event.skip idx]) ∧
    (∀ (o : Nat → SubprocResult) (w : Nat → Bool) (idx : Nat)
        (row : List Str),
        processRow true o w idx row = processRow true o w idx (row.take 5)) := by
  constructor
  · intro o w idx row h
    rcases row with _ | ⟨c, rest⟩
    · simp [hasData] at h
    · unfold processRow
      simp only [List.head?, h, Bool.not_false, Bool.and_true, if_true]
  · intro o w idx row
    rcases row with _ | ⟨c, rest⟩
    · rfl
    · unfold processRow
      simp only [List.take_succ_cons, List.head?, Bool.not_true,
        Bool.and_false]

/-- Witness for C6: a concrete row with a truthy sixth cell is skipped at
row index 3 without the force flag. -/
theorem C6_truthy_tail_skipped_unless_force_witness :
    hasData ["u".toList, [], [], [], [], "x".toList] = true ∧
    processRow false (fun _ => SubprocResult.exn) (fun _ => false) 3
        ["u".toList, [], [], [], [], "x".toList] =
      (if (3 - 2) % BATCH_SIZE = 0 ∧ 2 < 3
        then [Event.batchSleep 3] else []) ++ [Event.skip 3] :=
  ⟨by decide,
   C6_truthy_tail_skipped_unless_force.1 (fun _ => SubprocResult.exn)
     (fun _ => false) 3 ["u".toList, [], [], [], [], "x".toList] (by decide)⟩

/-- C2, counterexample: with two rows and a write call that raises at row
2, the trace still contains the fetch and the successful write of row 3 —
the write exception is caught by the per-row handler and the run does NOT
abort after it, contrary to the claim. -/
theorem C2_counterexample_write_exception_does_not_abort :
    Event.rowError 2 ∈ update_sheet [["alice".toList], ["bob".toList]]
        false false (fun _ => SubprocResult.ok 0 "Follower: 1".toList)
        (fun i => decide (i = 2)) ∧
    Event.fetch 3 "bob".toList ∈ update_sheet
        [["alice".toList], ["bob".toList]] false false
        (fun _ => SubprocResult.ok 0 "Follower: 1".toList)
        (fun i => decide (i = 2)) ∧
    Event.write 3 (buildValues (parseStdout "Follower: 1".toList)) ∈
      update_sheet [["alice".toList], ["bob".toList]] false false
        (fun _ => SubprocResult.ok 0 "Follower: 1".toList)
        (fun i => decide (i = 2)) := by
  refine ⟨by decide, by decide, by decide⟩

/-- C2, amended: a raising per-row write call is caught — the row emits a
logged error event and no write, and every row, also after a write
exception at an earlier row, still contributes its own trace (the loop
continues; only the initial read is outside the per-row handler). -/
theorem C2_write_exception_logged_loop_continues :
    ∀ (f : Bool) (o : Nat → SubprocResult) (w : Nat → Bool)
      (rows : List (List Str)) (i : Nat) (h : i < rows.length),
      update_sheet rows false f o w =
        runRows f o w 2 (rows.take i) ++
          processRow f o w (2 + i) (rows.get ⟨i, h⟩) ++
          runRows f o w (2 + i + 1) (rows.drop (i + 1)) ∧
      (∀ idx row vs, w idx = true →
        Event.write idx vs ∉ processRow f o w idx row) ∧
      (∀ idx row, w idx = true → row ≠ [] →
        (hasData row && !f) = false →
        dataFalsy (get_instagram_data (pyStrip (row.headD []))
          (o idx)) = false →
        Event.rowError idx ∈ processRow f o w idx row) := by
  intro f o w rows i h
  have hne : rows.isEmpty = false := by
    rcases rows with _ | ⟨r, rest⟩
    · simp at h
    · rfl
  refine ⟨?_, ?_, ?_⟩
  · rw [update_sheet, hne]
    simp only [Bool.false_eq_true, if_false]
    exact runRows_decomp f o w rows 2 i h
  · intro idx row vs hw hmem
    rcases row with _ | ⟨c, rest⟩ <;> unfold processRow at hmem
    · revert hmem
      split <;> simp
    · simp only [List.head?] at hmem
      revert hmem
      split
      · split <;> simp
      · rcases hdata : get_instagram_data (pyStrip c) (o idx) with _ | d <;>
          simp only [hdata]
        · split <;> simp
        · split <;> simp
  · intro idx row hw hrow hskip hfal
    rcases row with _ | ⟨c, rest⟩
    · exact absurd rfl hrow
    · simp only [List.headD] at hfal
      unfold processRow
      rcases hdata : get_instagram_data (pyStrip c) (o idx) with _ | d
      · rw [hdata] at hfal
        simp [dataFalsy] at hfal
      · rw [hdata] at hfal
        simp only [dataFalsy] at hfal
        simp [List.head?, hskip, hdata, hfal, hw]

/-- Witness for C2: the amended statement applied at the concrete failing
run of the counterexample, at row position 1. -/
theorem C2_write_exception_logged_loop_continues_witness :
    1 < ([["alice".toList], ["bob".toList]] : List (List Str)).length ∧
    update_sheet [["alice".toList], ["bob".toList]] false false
        (fun _ => SubprocResult.ok 0 "Follower: 1".toList)
        (fun i => decide (i = 2)) =
      runRows false (fun _ => SubprocResult.ok 0 "Follower: 1".toList)
          (fun i => decide (i = 2)) 2
          ([["alice".toList], ["bob".toList]].take 1) ++
        processRow false (fun _ => SubprocResult.ok 0 "Follower: 1".toList)
          (fun i => decide (i = 2)) (2 + 1)
          (([["alice".toList], ["bob".toList]] :
            List (List Str)).get ⟨1, by decide⟩) ++
        runRows false (fun _ => SubprocResult.ok 0 "Follower: 1".toList)
          (fun i => decide (i = 2)) (2 + 1 + 1)
          ([["alice".toList], ["bob".toList]].drop (1 + 1)) :=
  ⟨by decide,
   (C2_write_exception_logged_loop_continues false
     (fun _ => SubprocResult.ok 0 "Follower: 1".toList)
     (fun i => decide (i = 2)) [["alice".toList], ["bob".toList]] 1
     (by decide)).1⟩

/-- C8: a lookup that raises, or exits non-zero, makes the fetch return no
data; a row whose fetch returns no data produces neither a write nor an
uncaught error (the failure is only logged); and the loop still reaches
the next row — the trace of the row after any position is always present
in the run. -/
theorem C8_lookup_failure_is_soft :
    ∀ (u : Str) (rc : Int) (out : Str) (f : Bool)
      (o : Nat → SubprocResult) (w : Nat → Bool)
      (rows : List (List Str)) (i : Nat) (h : i + 1 < rows.length),
      get_instagram_data u SubprocResult.exn = none ∧
      (rc ≠ 0 → get_instagram_data u (SubprocResult.ok rc out) = none) ∧
      (∀ idx row c, row.head? = some c →
        get_instagram_data (pyStrip c) (o idx) = none →
        (processRow f o w idx row).all
          (fun e => !isWriteEv e && !isErrEv e) = true) ∧
      update_sheet rows false f o w =
        runRows f o w 2 (rows.take (i + 1)) ++
          processRow f o w (2 + (i + 1)) (rows.get ⟨i + 1, h⟩) ++
          runRows f o w (2 + (i + 1) + 1) (rows.drop (i + 2)) := by
  intro u rc out f o w rows i h
  refine ⟨?_, ?_, ?_, ?_⟩
  · unfold get_instagram_data
    split <;> rfl
  · intro hrc
    unfold get_instagram_data
    split
    · rfl
    · simp [hrc]
  · intro idx row c hhead hdata
    rcases row with _ | ⟨c0, rest⟩
    · simp at hhead
    · simp only [List.head?, Option.some.injEq] at hhead
      subst hhead
      unfold processRow
      simp only [List.head?, hdata]
      split
      · split <;> simp [isWriteEv, isErrEv]
      · split <;> split <;> simp [isWriteEv, isErrEv]
  · have hne : rows.isEmpty = false := by
      rcases rows with _ | ⟨r, rest⟩
      · simp at h
      · rfl
    rw [update_sheet, hne]
    simp only [Bool.false_eq_true, if_false]
    have e : i + 2 = (i + 1) + 1 := by omega
    rw [e]
    exact runRows_decomp f o w rows 2 (i + 1) h

/-- Witness for C8: concrete failing fetches and the concrete run of two
rows, showing the second row still processed after the failing first. -/
theorem C8_lookup_failure_is_soft_witness :
    (0 + 1 < ([["alice".toList], ["bob".toList]] : List (List Str)).length) ∧
    get_instagram_data "alice".toList SubprocResult.exn = none ∧
    ((1 : Int) ≠ 0 ∧
      get_instagram_data "alice".toList (SubprocResult.ok 1 []) = none) ∧
    update_sheet [["alice".toList], ["bob".toList]] false false
        (fun _ => SubprocResult.exn) (fun _ => false) =
      runRows false (fun _ => SubprocResult.exn) (fun _ => false) 2
          ([["alice".toList], ["bob".toList]].take (0 + 1)) ++
        processRow false (fun _ => SubprocResult.exn) (fun _ => false)
          (2 + (0 + 1))
          (([["alice".toList], ["bob".toList]] :
            List (List Str)).get ⟨0 + 1, by decide⟩) ++
        runRows false (fun _ => SubprocResult.exn) (fun _ => false)
          (2 + (0 + 1) + 1)
          ([["alice".toList], ["bob".toList]].drop (0 + 2)) := by
  refine ⟨by decide, ?_, ?_, ?_⟩
  · exact (C8_lookup_failure_is_soft "alice".toList 1 [] false
      (fun _ => SubprocResult.exn) (fun _ => false)
      [["alice".toList], ["bob".toList]] 0 (by decide)).1
  · exact ⟨by decide,
      (C8_lookup_failure_is_soft "alice".toList 1 [] false
        (fun _ => SubprocResult.exn) (fun _ => false)
        [["alice".toList], ["bob".toList]] 0 (by decide)).2.1 (by decide)⟩
  · exact (C8_lookup_failure_is_soft "alice".toList 1 [] false
      (fun _ => SubprocResult.exn) (fun _ => false)
      [["alice".toList], ["bob".toList]] 0 (by decide)).2.2.2

/-- C9: a row whose fetch yields falsy data — none on failure, or an empty
mapping from a successful subprocess whose stdout has no colon lines —
causes no spreadsheet update call for its row index, and replaying the
whole trace leaves that row of the sheet unchanged. -/
theorem C9_falsy_data_leaves_row_unchanged :
    ∀ (tm f : Bool) (o : Nat → SubprocResult) (w : Nat → Bool)
      (rows : List (List Str)) (i : Nat) (h : i < rows.length)
      (sheet : Nat → Option (List Str)),
      dataFalsy (get_instagram_data
          (pyStrip ((rows.get ⟨i, h⟩).headD [])) (o (2 + i))) = true →
      (∀ vs, Event.write (2 + i) vs ∉ update_sheet rows tm f o w) ∧
      applyEvents sheet (update_sheet rows tm f o w) (2 + i) =
        sheet (2 + i) := by
  intro tm f o w rows i h sheet hfal
  have hnw : ∀ vs, Event.write (2 + i) vs ∉ update_sheet rows tm f o w := by
    intro vs hmem
    unfold update_sheet at hmem
    revert hmem
    split
    · simp
    · intro hmem
      by_cases htm : tm = true
      · rw [if_pos htm] at hmem
        rcases write_mem_runRows hmem with ⟨j, hj, hk, hmem2⟩
        have hij : j = i := by omega
        subst hij
        have hget : (rows.take 1).get ⟨j, hj⟩ = rows.get ⟨j, h⟩ := by
          simp [List.get_eq_getElem, List.getElem_take]
        rw [hget] at hmem2
        exact write_not_mem_processRow_of_falsy hfal vs hmem2
      · rw [if_neg htm] at hmem
        rcases write_mem_runRows hmem with ⟨j, hj, hk, hmem2⟩
        have hij : j = i := by omega
        subst hij
        exact write_not_mem_processRow_of_falsy hfal vs hmem2
  exact ⟨hnw, applyEvents_eq_of_no_write _ sheet (2 + i) hnw⟩

/-- Witness for C9: a successful subprocess whose stdout has no colon lines
yields an empty mapping, and the single-row run issues no write and leaves
the sheet row unchanged. -/
theorem C9_falsy_data_leaves_row_unchanged_witness :
    (0 < ([["alice".toList]] : List (List Str)).length) ∧
    dataFalsy (get_instagram_data
      (pyStrip (([["alice".toList]] :
        List (List Str)).get ⟨0, by decide⟩|>.headD []))
      ((fun _ => SubprocResult.ok 0 "no colon here".toList) (2 + 0))) =
      true ∧
    ((∀ vs, Event.write (2 + 0) vs ∉ update_sheet [["alice".toList]]
        false false (fun _ => SubprocResult.ok 0 "no colon here".toList)
        (fun _ => false)) ∧
      applyEvents (fun _ => none) (update_sheet [["alice".toList]]
        false false (fun _ => SubprocResult.ok 0 "no colon here".toList)
        (fun _ => false)) (2 + 0) = (fun _ => (none : Option (List Str))) (2 + 0)) :=
  ⟨by decide, by decide,
   C9_falsy_data_leaves_row_unchanged false false
     (fun _ => SubprocResult.ok 0 "no colon here".toList)
     (fun _ => false) [["alice".toList]] 0 (by decide)
     (fun _ => none) (by decide)⟩

/-- C5, counterexample: with ten already-enriched rows (all skipped, no
fetch) followed by one fresh row, the run performs a batch pause at row 12
although not a single profile request was made before it — the batch
counter advances with the row index, not with requests actually made,
contrary to the claim. -/
theorem C5_counterexample_batch_pause_without_requests :
    Event.batchSleep 12 ∈ update_sheet
        (List.replicate 10 ["u".toList, [], [], [], [], "x".toList] ++
          [["v".toList]]) false false
        (fun _ => SubprocResult.ok 0 "Follower: 7".toList)
        (fun _ => false) ∧
    ((update_sheet
        (List.replicate 10 ["u".toList, [], [], [], [], "x".toList] ++
          [["v".toList]]) false false
        (fun _ => SubprocResult.ok 0 "Follower: 7".toList)
        (fun _ => false)).takeWhile
      (fun e => e != Event.batchSleep 12)).countP isFetchEv = 0 ∧
    (update_sheet
        (List.replicate 10 ["u".toList, [], [], [], [], "x".toList] ++
          [["v".toList]]) false false
        (fun _ => SubprocResult.ok 0 "Follower: 7".toList)
        (fun _ => false)).countP isFetchEv = 1 := by
  refine ⟨by decide, by decide, by decide⟩

/-- C5, amended: the rate-limit delay does occur immediately before every
profile fetch (in any trace every fetch event directly follows the
rate-limit sleep of its row); but the longer batch pause occurs exactly at
the visited row indices idx with idx greater than 2 and idx minus 2
divisible by `BATCH_SIZE` — counted over all rows, including skipped rows
that trigger no request. -/
theorem C5_delay_before_fetch_batch_pause_by_row_index :
    ∀ (rows : List (List Str)) (tm f : Bool) (o : Nat → SubprocResult)
      (w : Nat → Bool) (k : Nat),
      (Event.batchSleep k ∈ update_sheet rows tm f o w ↔
        ((k - 2) % BATCH_SIZE = 0 ∧ 2 < k ∧
          k < 2 + (if tm then rows.take 1 else rows).length)) ∧
      fetchOk (update_sheet rows tm f o w) = true := by
  intro rows tm f o w k
  unfold update_sheet
  by_cases hrows : rows.isEmpty = true
  · have hnil : rows = [] := by
      rcases rows with _ | ⟨r, rest⟩
      · rfl
      · simp at hrows
    subst hnil
    rw [if_pos hrows]
    constructor
    · simp only [List.not_mem_nil, false_iff]
      intro hcon
      rcases hcon with ⟨h1, h2, h3⟩
      revert h3
      split <;> simp <;> omega
    · rfl
  · rw [if_neg hrows]
    constructor
    · rw [batchSleep_mem_runRows]
      simp only [BATCH_SIZE]
      by_cases htm : tm = true <;>
        simp only [htm, if_true, if_false, Bool.false_eq_true] <;> omega
    · exact fetchOkAux_runRows f o w _ 2 none

/-- Witness for C5: in the counterexample run the batch pause at row 12 is
exactly predicted by the row-index rule, and the trace passes the
delay-before-fetch check. -/
theorem C5_delay_before_fetch_batch_pause_by_row_index_witness :
    (Event.batchSleep 12 ∈ update_sheet
        (List.replicate 10 ["u".toList, [], [], [], [], "x".toList] ++
          [["v".toList]]) false false
        (fun _ => SubprocResult.ok 0 "Follower: 7".toList)
        (fun _ => false) ↔
      ((12 - 2) % BATCH_SIZE = 0 ∧ 2 < 12 ∧
        12 < 2 + (if false then
          (List.replicate 10 ["u".toList, [], [], [], [], "x".toList] ++
            [["v".toList]]).take 1
          else
            (List.replicate 10 ["u".toList, [], [], [], [], "x".toList] ++
              [["v".toList]])).length)) ∧
    fetchOk (update_sheet
        (List.replicate 10 ["u".toList, [], [], [], [], "x".toList] ++
          [["v".toList]]) false false
        (fun _ => SubprocResult.ok 0 "Follower: 7".toList)
        (fun _ => false)) = true :=
  C5_delay_before_fetch_batch_pause_by_row_index
    (List.replicate 10 ["u".toList, [], [], [], [], "x".toList] ++
      [["v".toList]]) false false
    (fun _ => SubprocResult.ok 0 "Follower: 7".toList) (fun _ => false) 12

/-- C3, counterexample: the colon line with trimmed value containing the
pipe delimiter is NOT mapped to its trimmed value — the parser maps
Biography to the last pipe part instead, so the claim fails as stated for
lines whose value contains the delimiter. -/
theorem C3_counterexample_pipe_value_not_kept :
    List.lookup "Biography".toList
        (parseStdout "Biography: Hi | Love travel".toList) ≠
      some (pyStrip
        (splitFirst ':' "Biography: Hi | Love travel".toList).2) := by
  decide

/-- C3, amended: a colon line whose trimmed value does not contain the
pipe delimiter, and whose trimmed key is not assigned by any later line,
is mapped to its trimmed value in the parser output. -/
theorem C3_colon_line_maps_key_to_trimmed_value :
    ∀ (out : Str) (L1 L2 : List Str) (line k v : Str),
      pySplit NL out = L1 ++ line :: L2 →
      line.contains ':' = true →
      k = pyStrip (splitFirst ':' line).1 →
      v = pyStrip (splitFirst ':' line).2 →
      (pySplit SEP v).length = 1 →
      (∀ l ∈ L2, ∀ p ∈ assignsOfLine l, p.1 ≠ k) →
      List.lookup k (parseStdout out) = some v := by
  intro out L1 L2 line k v hsplit hc hk hv hlen hL2
  subst hk hv
  have hc' : ':' ∈ line := by simpa using hc
  have hline : assignsOfLine line =
      [(pyStrip (splitFirst ':' line).1, pyStrip (splitFirst ':' line).2)] := by
    unfold assignsOfLine
    simp [hc', hlen]
  rw [parseStdout_eq, hsplit]
  simp only [List.map_append, List.map_cons, List.flatten_append,
    List.flatten_cons, hline, List.reverse_append]
  rw [lookup_append, lookup_append]
  have hnone : List.lookup (pyStrip (splitFirst ':' line).1)
      ((List.map assignsOfLine L2).flatten).reverse = none := by
    apply lookup_eq_none_of_keys
    intro p hp
    rw [List.mem_reverse, List.mem_flatten] at hp
    rcases hp with ⟨l2, hl2, hpl⟩
    rcases List.mem_map.mp hl2 with ⟨l, hl, rfl⟩
    exact hL2 l hl p hpl
  rw [hnone]
  simp [List.lookup]

/-- Witness for C3: the amended statement at a concrete two-line stdout
where the second line assigns the Follower field. -/
theorem C3_colon_line_maps_key_to_trimmed_value_witness :
    pySplit NL "A: 1\nFollower: 5".toList =
      ["A: 1".toList] ++ "Follower: 5".toList :: [] ∧
    "Follower: 5".toList.contains ':' = true ∧
    "Follower".toList = pyStrip (splitFirst ':' "Follower: 5".toList).1 ∧
    "5".toList = pyStrip (splitFirst ':' "Follower: 5".toList).2 ∧
    (pySplit SEP "5".toList).length = 1 ∧
    List.lookup "Follower".toList
      (parseStdout "A: 1\nFollower: 5".toList) = some "5".toList :=
  ⟨by decide, by decide, by decide, by decide, by decide,
   C3_colon_line_maps_key_to_trimmed_value "A: 1\nFollower: 5".toList
     ["A: 1".toList] [] "Follower: 5".toList "Follower".toList "5".toList
     (by decide) (by decide) (by decide) (by decide) (by decide)
     (by simp)⟩

/-- C4: a colon line whose trimmed value contains the pipe delimiter is
processed by splitting the value on the delimiter and assigning, in
order, each part with a colon as its own trimmed key/value pair and each
part without a colon to the outer key — later assignments shadowing
earlier ones, since lookup sees the most recent first; in particular the
line with value Hi pipe Love travel leaves Biography mapped to the last
part, Love travel. -/
theorem C4_pipe_value_split_into_parts :
    (∀ (d : List (Str × Str)) (line key value : Str),
      line.contains ':' = true →
      key = pyStrip (splitFirst ':' line).1 →
      value = pyStrip (splitFirst ':' line).2 →
      (pySplit SEP value).length ≠ 1 →
      lineAssign d line =
        ((pySplit SEP value).map (partAssign key)).reverse ++ d) ∧
    List.lookup "Biography".toList
      (parseStdout "Biography: Hi | Love travel".toList) =
      some "Love travel".toList := by
  constructor
  · intro d line key value hc hk hv hlen
    subst hk hv
    rw [lineAssign_eq]
    have hc' : ':' ∈ line := by simpa using hc
    have hline : assignsOfLine line =
        (pySplit SEP (pyStrip (splitFirst ':' line).2)).map
          (partAssign (pyStrip (splitFirst ':' line).1)) := by
      unfold assignsOfLine
      simp [hc', hlen]
    rw [hline]
  · decide

/-- Witness for C4: the split rule applied to a concrete line with one
colon-free part and one colon part. -/
theorem C4_pipe_value_split_into_parts_witness :
    "A: 1 | B: 2".toList.contains ':' = true ∧
    "A".toList = pyStrip (splitFirst ':' "A: 1 | B: 2".toList).1 ∧
    "1 | B: 2".toList = pyStrip (splitFirst ':' "A: 1 | B: 2".toList).2 ∧
    (pySplit SEP "1 | B: 2".toList).length ≠ 1 ∧
    lineAssign [] "A: 1 | B: 2".toList =
      ((pySplit SEP "1 | B: 2".toList).map
        (partAssign "A".toList)).reverse ++ [] :=
  ⟨by decide, by decide, by decide, by decide,
   C4_pipe_value_split_into_parts.1 [] "A: 1 | B: 2".toList "A".toList
     "1 | B: 2".toList (by decide) (by decide) (by decide) (by decide)⟩

/-- C10, counterexample: the second line has a pipe value whose sub-parts
all contain colons and whose sub-keys differ from the outer key B, yet B
is present in the final mapping — assigned by the FIRST line — so the
claim fails as stated when another line assigns the outer key. -/
theorem C10_counterexample_outer_key_from_other_line :
    (∀ part ∈ pySplit SEP
        (pyStrip (splitFirst ':' "B: a: 1 | c: 2".toList).2),
      part.contains ':' = true ∧
        pyStrip (splitFirst ':' (pyStrip part)).1 ≠ "B".toList) ∧
    List.lookup "B".toList
      (parseStdout "B: x\nB: a: 1 | c: 2".toList) = some "x".toList := by
  refine ⟨by decide, by decide⟩

/-- C10, amended: for a colon line whose trimmed value contains the pipe
delimiter, if every pipe part contains a colon, no part has the outer key
as its sub-key, and no other line of the stdout assigns the outer key,
then the outer key is absent from the parser output. -/
theorem C10_outer_key_absent_when_all_parts_have_colons :
    ∀ (out : Str) (L1 L2 : List Str) (line k v : Str),
      pySplit NL out = L1 ++ line :: L2 →
      line.contains ':' = true →
      k = pyStrip (splitFirst ':' line).1 →
      v = pyStrip (splitFirst ':' line).2 →
      (pySplit SEP v).length ≠ 1 →
      (∀ part ∈ pySplit SEP v, part.contains ':' = true) →
      (∀ part ∈ pySplit SEP v,
        pyStrip (splitFirst ':' (pyStrip part)).1 ≠ k) →
      (∀ l ∈ L1 ++ L2, ∀ p ∈ assignsOfLine l, p.1 ≠ k) →
      List.lookup k (parseStdout out) = none := by
  intro out L1 L2 line k v hsplit hc hk hv hlen hcolon hsub hother
  subst hk hv
  rw [parseStdout_eq, hsplit]
  apply lookup_eq_none_of_keys
  intro p hp
  rw [List.mem_reverse, List.mem_flatten] at hp
  rcases hp with ⟨l2, hl2, hpl⟩
  rcases List.mem_map.mp hl2 with ⟨l, hl, rfl⟩
  rcases List.mem_append.mp hl with hl1 | hl12
  · exact hother l (List.mem_append.mpr (Or.inl hl1)) p hpl
  · rcases List.mem_cons.mp hl12 with rfl | hl2'
    · have hc' : ':' ∈ l := by simpa using hc
      have hline : assignsOfLine l =
          (pySplit SEP (pyStrip (splitFirst ':' l).2)).map
            (partAssign (pyStrip (splitFirst ':' l).1)) := by
        unfold assignsOfLine
        simp [hc', hlen]
      rw [hline] at hpl
      rcases List.mem_map.mp hpl with ⟨part, hpart, rfl⟩
      intro hpk
      have hcp := hcolon part hpart
      have hsp := hsub part hpart
      unfold partAssign at hpk
      rw [hcp] at hpk
      simp only [if_true] at hpk
      exact hsp hpk
    · exact hother l (List.mem_append.mpr (Or.inr hl2')) p hpl

/-- Witness for C10: the amended statement at a concrete stdout whose
first line assigns A and whose second line has outer key B with two
colon-containing pipe parts; B is absent from the output. -/
theorem C10_outer_key_absent_witness :
    pySplit NL "A: 1\nB: a: 1 | c: 2".toList =
      ["A: 1".toList] ++ "B: a: 1 | c: 2".toList :: [] ∧
    "B: a: 1 | c: 2".toList.contains ':' = true ∧
    "B".toList = pyStrip (splitFirst ':' "B: a: 1 | c: 2".toList).1 ∧
    "a: 1 | c: 2".toList =
      pyStrip (splitFirst ':' "B: a: 1 | c: 2".toList).2 ∧
    (pySplit SEP "a: 1 | c: 2".toList).length ≠ 1 ∧
    (∀ part ∈ pySplit SEP "a: 1 | c: 2".toList,
      part.contains ':' = true) ∧
    (∀ part ∈ pySplit SEP "a: 1 | c: 2".toList,
      pyStrip (splitFirst ':' (pyStrip part)).1 ≠ "B".toList) ∧
    List.lookup "B".toList
      (parseStdout "A: 1\nB: a: 1 | c: 2".toList) = none :=
  ⟨by decide, by decide, by decide, by decide, by decide, by decide,
   by decide,
   C10_outer_key_absent_when_all_parts_have_colons
     "A: 1\nB: a: 1 | c: 2".toList ["A: 1".toList] []
     "B: a: 1 | c: 2".toList "B".toList "a: 1 | c: 2".toList
     (by decide) (by decide) (by decide) (by decide) (by decide)
     (by decide) (by decide) (by decide)⟩

end Enricher
